import Mathlib

/-!
Verification of the table data model and table view component of the
carbon-components-angular repository.

The `Table` view component is embedded from `src/table/table.component.ts`:
its checkbox bookkeeping (`updateSelectAllCheckbox`, `onRowCheckboxChange`),
its single-select click handler (`onRowSelect`), the sort button's click
handler, and the drag-and-drop column handler's call into the model.

The `TableModel` class itself (`table.module.ts`) is not part of the source
tree; its operations (`selectRow`, `selectAll`, `selectedRowsCount`,
`expandRow`, `moveColumn`, `isRowFiltered`, the `data` setter) are modelled
from the specification's description of the model contract and are marked
`Modelled from the spec:` below.

The icon service's sprite request pipeline is embedded from
`src/icon/icon.service.ts`.
-/

namespace Carbon

/-- Modelled from the spec: `rowsContext` maps a row index to one of
{none, success, warning, info, error}; the `TableModel` class carrying it is
not under the source tree. -/
inductive RowContext : Type where
| noContext : RowContext
| success : RowContext
| warning : RowContext
| info : RowContext
| error : RowContext
deriving DecidableEq, Repr

/-- Modelled from the spec: a `TableItem` (RowItem/Cell) carries an opaque
data payload, an optional nested-children sequence enabling hierarchical
expansion, and its own expand/collapse flag (each row with children owns its
own expansion flag, forming a tree of independent states). The `TableItem`
class is not under the source tree. -/
inductive TableItem (α : Type) : Type where
| mk : α → Bool → List (TableItem α) → TableItem α

/-- Data payload of a cell. -/
def TableItem.data {α : Type} : TableItem α → α
| .mk d _ _ => d

/-- The cell's own expansion flag (used by nested children). -/
def TableItem.expanded {α : Type} : TableItem α → Bool
| .mk _ e _ => e

/-- Nested children sequence of the cell's row. -/
def TableItem.children {α : Type} : TableItem α → List (TableItem α)
| .mk _ _ c => c

/-- Modelled from the spec: one `TableHeaderItem` per column, with display
label, visibility flag, sort flags and an optional filter predicate; the
class is not under the source tree. The filter predicate returns `true` when
the cell passes (spec convention: a row is hidden when an active predicate
returns `false` for its cell). `filter = none` means the column has no
active filter. -/
structure TableHeaderItem (α : Type) : Type where
  data : α
  visible : Bool
  sorted : Bool
  descending : Bool
  filter : Option (TableItem α → Bool)

/-- Modelled from the spec: the `TableModel` aggregate — header sequence,
row data (each row a sequence of cells), and the per-row bookkeeping arrays
`rowsSelected`, `rowsExpanded`, `rowsContext`. The class
(`table.module.ts`) is not under the source tree. -/
structure TableModel (α : Type) : Type where
  header : List (TableHeaderItem α)
  data : List (List (TableItem α))
  rowsSelected : List Bool
  rowsExpanded : List Bool
  rowsContext : List RowContext

/-- Change notifications raised by model mutations (the model's
`dataChange` / `rowsSelectedChange` emitters). -/
inductive TableNotification : Type where
| dataChange : TableNotification
| rowsSelectedChange : TableNotification
deriving DecidableEq, Repr

/-- Moves the element at index `i` of `l` to index `j`: remove at `i`,
re-insert at `j` (splice semantics: the insertion index is clamped to the
length of the shortened list; an out-of-range source index is a no-op). -/
def listMove {α : Type} (l : List α) (i j : Nat) : List α :=
  match l[i]? with
  | none => l
  | some x => (l.eraseIdx i).insertIdx (min j (l.eraseIdx i).length) x

/-- Modelled from the spec: `selectedRowsCount()` returns the count of rows
whose `rowsSelected` entry is true. -/
def TableModel.selectedRowsCount {α : Type} (m : TableModel α) : Nat :=
  m.rowsSelected.count true

/-- Modelled from the spec: `selectRow(index, value)` sets
`rowsSelected[index] = value`, failing silently (no-op) on an out-of-range
index, and emits a selection-changed notification. -/
def TableModel.selectRow {α : Type} (m : TableModel α) (index : Nat) (value : Bool) :
    TableModel α × List TableNotification :=
  if index < m.rowsSelected.length then
    ({ m with rowsSelected := m.rowsSelected.set index value },
     [TableNotification.rowsSelectedChange])
  else
    (m, [])

/-- Modelled from the spec: `selectAll(value)` sets every entry of
`rowsSelected` to `value` in one pass and emits once. -/
def TableModel.selectAll {α : Type} (m : TableModel α) (value : Bool) :
    TableModel α × List TableNotification :=
  ({ m with rowsSelected := m.rowsSelected.map (fun _ => value) },
   [TableNotification.rowsSelectedChange])

/-- Modelled from the spec: `expandRow(index, expand)` sets
`rowsExpanded[index]`; it does not mutate children. -/
def TableModel.expandRow {α : Type} (m : TableModel α) (index : Nat) (expand : Bool) :
    TableModel α × List TableNotification :=
  ({ m with rowsExpanded := m.rowsExpanded.set index expand },
   [TableNotification.dataChange])

/-- Modelled from the spec: `moveColumn(indexFrom, indexTo)` removes the
header at `indexFrom` and re-inserts it at `indexTo`, and applies the same
index move to every row's cell sequence. -/
def TableModel.moveColumn {α : Type} (m : TableModel α) (indexFrom indexTo : Nat) :
    TableModel α × List TableNotification :=
  ({ m with header := listMove m.header indexFrom indexTo,
            data := m.data.map (fun row => listMove row indexFrom indexTo) },
   [TableNotification.dataChange])

/-- `true` when the column's active filter predicate rejects the cell
(no active filter rejects nothing). -/
def TableHeaderItem.filtersOut {α : Type} (h : TableHeaderItem α) (c : TableItem α) : Bool :=
  match h.filter with
  | none => false
  | some p => !(p c)

/-- Modelled from the spec: `isRowFiltered(index)` — a row is filtered out
(hidden) when any column's active filter predicate returns `false` for that
row's cell; an out-of-range read returns the falsy default. It is a pure
query: it does not remove rows from `data`. -/
def TableModel.isRowFiltered {α : Type} (m : TableModel α) (index : Nat) : Bool :=
  match m.data[index]? with
  | none => false
  | some row => (m.header.zip row).any (fun hc => hc.1.filtersOut hc.2)

/-- Modelled from the spec: wholesale replacement of `data` re-derives the
`rowsSelected`/`rowsExpanded` (and `rowsContext`) bookkeeping arrays at the
new matching length (reset-on-replace), and raises a data-changed
notification. -/
def TableModel.setData {α : Type} (m : TableModel α) (newData : List (List (TableItem α))) :
    TableModel α × List TableNotification :=
  ({ m with data := newData,
            rowsSelected := List.replicate newData.length false,
            rowsExpanded := List.replicate newData.length false,
            rowsContext := List.replicate newData.length RowContext.noContext },
   [TableNotification.dataChange])

/-- The length invariant of the model's bookkeeping arrays:
`rowsSelected`, `rowsExpanded` and `rowsContext` all have the same length
as `data`. -/
def TableModel.wellFormed {α : Type} (m : TableModel α) : Prop :=
  m.rowsSelected.length = m.data.length ∧
  m.rowsExpanded.length = m.data.length ∧
  m.rowsContext.length = m.data.length

/-- The model mutations named by the invariant section of the spec:
selection, expansion, column move, data replacement. -/
inductive TableMutation (α : Type) : Type where
| selectRow : Nat → Bool → TableMutation α
| selectAll : Bool → TableMutation α
| expandRow : Nat → Bool → TableMutation α
| moveColumn : Nat → Nat → TableMutation α
| setData : List (List (TableItem α)) → TableMutation α

/-- State reached after one model mutation. -/
def TableModel.applyMutation {α : Type} (m : TableModel α) : TableMutation α → TableModel α
| .selectRow i v => (m.selectRow i v).1
| .selectAll v => (m.selectAll v).1
| .expandRow i e => (m.expandRow i e).1
| .moveColumn f t => (m.moveColumn f t).1
| .setData d => (m.setData d).1

/-- View state of the `Table` component (`table.component.ts`): the model it
renders plus the header-checkbox flags `selectAllCheckbox` and
`selectAllCheckboxSomeSelected`, and the `showSelectionColumn` /
`enableSingleSelect` inputs. -/
structure TableView (α : Type) : Type where
  model : TableModel α
  selectAllCheckbox : Bool
  selectAllCheckboxSomeSelected : Bool
  showSelectionColumn : Bool
  enableSingleSelect : Bool

/-- Embeds `Table.updateSelectAllCheckbox` (table.component.ts): when
nothing is selected both header-checkbox flags are cleared; when fewer rows
than `data.length` are selected the indeterminate flag is set; otherwise
the method falls through leaving the view unchanged. -/
def Table.updateSelectAllCheckbox {α : Type} (t : TableView α) : TableView α :=
  let count := t.model.selectedRowsCount
  if count ≤ 0 then
    { t with selectAllCheckbox := false, selectAllCheckboxSomeSelected := false }
  else if count < t.model.data.length then
    { t with selectAllCheckboxSomeSelected := true }
  else
    t

/-- Events emitted by the row checkbox handler (`selectRow` /
`deselectRow` outputs of the component). -/
inductive RowSelectionEvent : Type where
| selectedRow : Nat → RowSelectionEvent
| deselectedRow : Nat → RowSelectionEvent
deriving DecidableEq, Repr

/-- Embeds `Table.onRowCheckboxChange` (table.component.ts): reads
`rowsSelected[0]` as `startValue` (undefined coerces to false), emits
`selectRow`/`deselectRow` for the clicked row, then scans indices `1..` for
an entry whose boolean value differs from `startValue`; on the first
mismatch it sets the indeterminate flag and clears the checkbox, otherwise
it clears the indeterminate flag and sets the checkbox to `startValue`. -/
def Table.onRowCheckboxChange {α : Type} (t : TableView α) (index : Nat) :
    TableView α × List RowSelectionEvent :=
  let startValue := t.model.rowsSelected.getD 0 false
  let events :=
    if t.model.rowsSelected.getD index false then [RowSelectionEvent.selectedRow index]
    else [RowSelectionEvent.deselectedRow index]
  if (t.model.rowsSelected.drop 1).any (fun one => one != startValue) then
    ({ t with selectAllCheckbox := false, selectAllCheckboxSomeSelected := true }, events)
  else
    ({ t with selectAllCheckboxSomeSelected := false, selectAllCheckbox := startValue }, events)

/-- Embeds `Table.onRowSelect` (table.component.ts): in single-select mode
(`!showSelectionColumn && enableSingleSelect`) it first calls
`selectRow(i, false)` for every index of `rowsSelected`, then calls
`selectRow(index, !rowsSelected[index])` reading the just-cleared flag
(undefined coerces to false under `!`). Outside single-select mode it does
nothing. -/
def Table.onRowSelect {α : Type} (t : TableView α) (index : Nat) : TableView α :=
  if !t.showSelectionColumn && t.enableSingleSelect then
    let cleared := (List.range t.model.rowsSelected.length).foldl
        (fun m i => (TableModel.selectRow m i false).1) t.model
    { t with model := (cleared.selectRow index (!(cleared.rowsSelected.getD index false))).1 }
  else
    t

/-- Embeds the sort button's click handler from the component template:
its only action is `sort.emit(i)` — it emits the column index on the `sort`
output and performs no other work. -/
def Table.onSortButtonClick {α : Type} (t : TableView α) (i : Nat) :
    TableView α × List Nat :=
  (t, [i])

/-- Row indices actually rendered by the component template: the `tbody`
iterates the full `data` array and guards each row with
`*ngIf="!model.isRowFiltered(i)"`. -/
def Table.visibleRowIndices {α : Type} (m : TableModel α) : List Nat :=
  (List.range m.data.length).filter (fun i => !m.isRowFiltered i)

/-- The error string built by `IconService.doSpriteRequest`'s `catchError`
handler (icon.service.ts). -/
def spriteErrorMessage (name : String) : String :=
  "failed to load sprite " ++ name ++ ", check that the server is available and baseURL is correct"

/-- Observable outcome of one `doSpriteRequest` call: the console error
messages written, the result surfaced to the subscriber, the number of HTTP
requests issued, and the net change to the static `runningRequests`
counter. -/
structure SpriteRequestResult : Type where
  consoleErrors : List String
  outcome : Except String String
  httpRequests : Nat
  runningRequestsDelta : Nat

/-- Embeds `IconService.doSpriteRequest` (icon.service.ts): it increments
`runningRequests`, issues one HTTP GET for `{baseURL}{name}.svg`, and pipes
the response through `tap` (decrement the counter on success) and
`catchError` (log one console error and return `throwError` with the same
message). The function is parameterised by the HTTP response. -/
def doSpriteRequest (name : String) (response : Except Unit String) : SpriteRequestResult :=
  match response with
  | .ok body =>
      { consoleErrors := [], outcome := .ok body, httpRequests := 1, runningRequestsDelta := 0 }
  | .error _ =>
      { consoleErrors := [spriteErrorMessage name],
        outcome := .error (spriteErrorMessage name),
        httpRequests := 1,
        runningRequestsDelta := 1 }

/-- Source index of the element that ends up at position `j` after the
element at `i` is removed and re-inserted at `t`. -/
def moveSrc (i t j : Nat) : Nat :=
  if j = t then i
  else if j < t then (if j < i then j else j + 1)
  else (if j - 1 < i then j - 1 else j)

/-- A plain header with label `n` and no active filter. -/
def sampleHeader (n : Nat) : TableHeaderItem Nat :=
  { data := n, visible := true, sorted := false, descending := false, filter := none }

/-- A header whose active filter keeps only cells whose payload is `1`. -/
def sampleFilterHeader : TableHeaderItem Nat :=
  { data := 9, visible := true, sorted := false, descending := false,
    filter := some (fun c => c.data == 1) }

/-- A leaf cell with payload `n`. -/
def sampleCell (n : Nat) : TableItem Nat := TableItem.mk n false []

/-- A two-column, two-row model with the first row selected. -/
def sampleModel : TableModel Nat :=
  { header := [sampleHeader 0, sampleHeader 1],
    data := [[sampleCell 1, sampleCell 2], [sampleCell 3, sampleCell 4]],
    rowsSelected := [true, false],
    rowsExpanded := [false, false],
    rowsContext := [RowContext.noContext, RowContext.noContext] }

/-- A one-column model whose single active filter rejects its only row. -/
def filteredModel : TableModel Nat :=
  { header := [sampleFilterHeader],
    data := [[sampleCell 2]],
    rowsSelected := [false],
    rowsExpanded := [false],
    rowsContext := [RowContext.noContext] }

/-- The sample model rendered with the selection column shown. -/
def sampleView : TableView Nat :=
  { model := sampleModel, selectAllCheckbox := false, selectAllCheckboxSomeSelected := false,
    showSelectionColumn := true, enableSingleSelect := false }

/-- The sample model rendered in single-select mode. -/
def singleSelectView : TableView Nat :=
  { model := sampleModel, selectAllCheckbox := false, selectAllCheckboxSomeSelected := false,
    showSelectionColumn := false, enableSingleSelect := true }

/-- Element lookup after `insertIdx`: positions below the insertion point
are unchanged, the insertion point holds the new element, later positions
shift by one. -/
theorem getElem?_insertIdx_split {α : Type} (l : List α) (x : α) (i j : Nat)
    (h : i ≤ l.length) :
    (l.insertIdx i x)[j]? =
      if j < i then l[j]? else if j = i then some x else l[j - 1]? := by
  induction l generalizing i j with
  | nil =>
    have hi : i = 0 := Nat.le_zero.mp h
    subst hi
    cases j with
    | zero => rfl
    | succ j =>
      simp only [List.insertIdx]
      cases j <;> simp
  | cons a as ih =>
    cases i with
    | zero =>
      cases j with
      | zero => rfl
      | succ j => simp
    | succ i =>
      have h' : i ≤ as.length := Nat.succ_le_succ_iff.mp h
      cases j with
      | zero => simp
      | succ j =>
        have := ih i j h'
        simp only [List.insertIdx_succ_cons, List.getElem?_cons_succ]
        rw [this]
        by_cases h1 : j < i
        · rw [if_pos h1, if_pos (Nat.succ_lt_succ h1)]
        · rw [if_neg h1, if_neg (fun hc => h1 (Nat.succ_lt_succ_iff.mp hc))]
          by_cases h2 : j = i
          · rw [if_pos h2, if_pos (by omega)]
          · rw [if_neg h2, if_neg (by omega)]
            have hj1 : 1 ≤ j := by omega
            have : j + 1 - 1 = (j - 1) + 1 := by omega
            rw [this, List.getElem?_cons_succ]

/-- `listMove` preserves the length of the list. -/
theorem listMove_length {α : Type} (l : List α) (i t : Nat) :
    (listMove l i t).length = l.length := by
  unfold listMove
  cases h : l[i]? with
  | none => rfl
  | some x =>
    have hi : i < l.length := (List.getElem?_eq_some.mp h).1
    rw [List.length_insertIdx _ _ (Nat.min_le_right _ _)]
    rw [List.length_eraseIdx]
    simp only [hi, if_pos]
    omega

/-- `moveSrc` stays within bounds. -/
theorem moveSrc_lt (i t j n : Nat) (hi : i < n) (ht : t < n) (hj : j < n) :
    moveSrc i t j < n := by
  unfold moveSrc
  split_ifs <;> omega

/-- After an in-range move, the element at position `j` is the original
element at position `moveSrc i t j`. -/
theorem listMove_getElem? {α : Type} (l : List α) (i t j : Nat)
    (hi : i < l.length) (ht : t < l.length) (hj : j < l.length) :
    (listMove l i t)[j]? = l[moveSrc i t j]? := by
  have hx : l[i]? = some l[i] := List.getElem?_eq_getElem hi
  have hel : (l.eraseIdx i).length = l.length - 1 := by
    rw [List.length_eraseIdx]; simp [hi]
  have hmin : min t (l.eraseIdx i).length = t := by
    rw [hel]; exact Nat.min_eq_left (by omega)
  unfold listMove
  rw [hx]
  simp only [hmin]
  rw [getElem?_insertIdx_split _ _ _ _ (by omega)]
  unfold moveSrc
  by_cases h1 : j = t
  · subst h1
    rw [if_neg (Nat.lt_irrefl j), if_pos rfl, if_pos rfl]
    exact hx.symm
  · by_cases h2 : j < t
    · rw [if_pos h2, if_neg h1, if_pos h2, List.getElem?_eraseIdx]
      split_ifs <;> rfl
    · rw [if_neg h2, if_neg h1, if_neg h1, if_neg h2, List.getElem?_eraseIdx]
      have hj1 : 1 ≤ j := by omega
      have heq : j - 1 + 1 = j := by omega
      split_ifs with h3
      · rfl
      · rw [heq]

/-- Setting a `false` entry to `true` increases the `true`-count by one. -/
theorem count_true_set_true (l : List Bool) (i : Nat) (h : l[i]? = some false) :
    (l.set i true).count true = l.count true + 1 := by
  induction l generalizing i with
  | nil => simp at h
  | cons a as ih =>
    cases i with
    | zero =>
      simp only [List.getElem?_cons_zero, Option.some_inj] at h
      subst h
      simp [List.count_cons]
    | succ i =>
      simp only [List.getElem?_cons_succ] at h
      simp only [List.set_cons_succ, List.count_cons, ih i h]
      omega

/-- Writing back the value already stored leaves the list unchanged. -/
theorem set_getElem?_self {α : Type} (l : List α) (i : Nat) (a : α)
    (h : l[i]? = some a) : l.set i a = l := by
  induction l generalizing i with
  | nil => simp at h
  | cons b bs ih =>
    cases i with
    | zero =>
      simp only [List.getElem?_cons_zero, Option.some_inj] at h
      subst h
      rfl
    | succ i =>
      simp only [List.getElem?_cons_succ] at h
      simp [List.set_cons_succ, ih i h]

/-- Setting the position just after an all-`b` prefix to `b` extends the
prefix. -/
theorem set_replicate_append {α : Type} (n : Nat) (b x : α) (rest : List α) :
    (List.replicate n b ++ (x :: rest)).set n b = List.replicate (n + 1) b ++ rest := by
  induction n with
  | zero => rfl
  | succ n ih =>
    simp only [List.replicate_succ, List.cons_append, List.set_cons_succ, ih]

/-- Reading any position of an all-`false` list with default `false` gives
`false`. -/
theorem getD_replicate_false (n i : Nat) : (List.replicate n false).getD i false = false := by
  rw [List.getD_eq_getElem?_getD, List.getElem?_replicate]
  split_ifs <;> rfl

/-- The scan of `onRowCheckboxChange` classified by the `true`-count of the
selection list: no selected row means the head is `false` and no mismatch;
a strict partial selection means some later entry mismatches the head; full
selection means the head is `true` and no mismatch. -/
theorem checkboxScan (a : Bool) (as : List Bool) :
    ((a :: as).count true = 0 → a = false ∧ as.any (fun one => one != a) = false) ∧
    (0 < (a :: as).count true → (a :: as).count true < (a :: as).length →
      as.any (fun one => one != a) = true) ∧
    ((a :: as).count true = (a :: as).length → a = true ∧ as.any (fun one => one != a) = false) := by
  refine ⟨?_, ?_, ?_⟩
  · intro h
    have hnm : true ∉ (a :: as) := List.count_eq_zero.mp h
    have ha : a = false := by
      cases a
      · rfl
      · exact absurd (List.mem_cons_self _ _) hnm
    subst ha
    refine ⟨rfl, List.any_eq_false.mpr ?_⟩
    intro x hx
    have hxf : x = false := by
      cases x
      · rfl
      · exact absurd (List.mem_cons_of_mem _ hx) hnm
    subst hxf
    simp
  · intro hpos hlt
    have htm : true ∈ (a :: as) := List.count_pos_iff.mp hpos
    have hfm : false ∈ (a :: as) := by
      by_contra hf
      have hall : ∀ b ∈ (a :: as), true = b := by
        intro b hb
        cases b
        · exact absurd hb hf
        · rfl
      exact absurd (List.count_eq_length.mpr hall) (Nat.ne_of_lt hlt)
    cases a
    · have : true ∈ as := by
        rcases List.mem_cons.mp htm with h | h
        · exact absurd h (by simp)
        · exact h
      exact List.any_eq_true.mpr ⟨true, this, rfl⟩
    · have : false ∈ as := by
        rcases List.mem_cons.mp hfm with h | h
        · exact absurd h (by simp)
        · exact h
      exact List.any_eq_true.mpr ⟨false, this, rfl⟩
  · intro h
    have hall : ∀ b ∈ (a :: as), true = b := List.count_eq_length.mp h
    have ha : a = true := (hall a (List.mem_cons_self _ _)).symm
    subst ha
    refine ⟨rfl, List.any_eq_false.mpr ?_⟩
    intro x hx
    have hxt : x = true := (hall x (List.mem_cons_of_mem _ hx)).symm
    subst hxt
    simp

/-- Selection state after the clearing loop of `onRowSelect`: folding
`selectRow · i false` over the first `n` indices rewrites the first `n`
entries to `false` and keeps the tail. -/
theorem clearFoldAux {α : Type} (n : Nat) (m : TableModel α)
    (h : n ≤ m.rowsSelected.length) :
    ((List.range n).foldl (fun acc i => (TableModel.selectRow acc i false).1) m).rowsSelected
      = List.replicate n false ++ m.rowsSelected.drop n := by
  induction n with
  | zero => simp
  | succ n ih =>
    have hn : n ≤ m.rowsSelected.length := Nat.le_of_succ_le h
    have hlt : n < m.rowsSelected.length := h
    rw [List.range_succ, List.foldl_append]
    simp only [List.foldl_cons, List.foldl_nil]
    set prev := (List.range n).foldl (fun acc i => (TableModel.selectRow acc i false).1) m with hprev
    have hps : prev.rowsSelected = List.replicate n false ++ m.rowsSelected.drop n := ih hn
    have hplen : prev.rowsSelected.length = m.rowsSelected.length := by
      rw [hps]
      simp only [List.length_append, List.length_replicate, List.length_drop]
      omega
    unfold TableModel.selectRow
    rw [if_pos (by rw [hplen]; exact hlt)]
    simp only
    rw [hps, ← List.getElem_cons_drop m.rowsSelected n hlt, set_replicate_append]

/-- The clearing loop of `onRowSelect` deselects every row. -/
theorem clearFold_rowsSelected {α : Type} (m : TableModel α) :
    ((List.range m.rowsSelected.length).foldl
        (fun acc i => (TableModel.selectRow acc i false).1) m).rowsSelected
      = List.replicate m.rowsSelected.length false := by
  rw [clearFoldAux _ _ (Nat.le_refl _), List.drop_length, List.append_nil]

/-- `any` over a zip of two lists, phrased through positional lookups. -/
theorem any_zip_iff {α β : Type} (l₁ : List α) (l₂ : List β) (f : α → β → Bool) :
    ((l₁.zip l₂).any fun p => f p.1 p.2) = true ↔
      ∃ (j : Nat) (a : α) (b : β), l₁[j]? = some a ∧ l₂[j]? = some b ∧ f a b = true := by
  rw [List.any_eq_true]
  constructor
  · rintro ⟨x, hx, hfx⟩
    obtain ⟨j, hj, hxe⟩ := List.mem_iff_getElem.mp hx
    have hlz : (l₁.zip l₂).length = min l₁.length l₂.length := List.length_zip l₁ l₂
    have hj1 : j < l₁.length := by omega
    have hj2 : j < l₂.length := by omega
    refine ⟨j, l₁[j], l₂[j], List.getElem?_eq_getElem hj1, List.getElem?_eq_getElem hj2, ?_⟩
    have hzx : (l₁.zip l₂)[j] = (l₁[j], l₂[j]) := List.getElem_zip
    rw [hxe] at hzx
    rw [hzx] at hfx
    exact hfx
  · rintro ⟨j, a, b, ha, hb, hf⟩
    have hj1 : j < l₁.length := (List.getElem?_eq_some.mp ha).1
    have hj2 : j < l₂.length := (List.getElem?_eq_some.mp hb).1
    have hjz : j < (l₁.zip l₂).length := by
      rw [List.length_zip]
      omega
    refine ⟨(l₁.zip l₂)[j], List.getElem_mem hjz, ?_⟩
    have hzx : (l₁.zip l₂)[j] = (l₁[j], l₂[j]) := List.getElem_zip
    have ha' : l₁[j] = a := by
      have := List.getElem?_eq_getElem hj1
      rw [ha] at this
      exact (Option.some_inj.mp this).symm
    have hb' : l₂[j] = b := by
      have := List.getElem?_eq_getElem hj2
      rw [hb] at this
      exact (Option.some_inj.mp this).symm
    rw [hzx]
    simp only [ha', hb']
    exact hf

/-- `filtersOut` unfolded: the column has an active predicate and it
returns `false` for the cell. -/
theorem filtersOut_iff {α : Type} (h : TableHeaderItem α) (c : TableItem α) :
    h.filtersOut c = true ↔ ∃ p, h.filter = some p ∧ p c = false := by
  cases hf : h.filter with
  | none => simp [TableHeaderItem.filtersOut, hf]
  | some p => simp [TableHeaderItem.filtersOut, hf]

/-- Helper: an in-range move equals erase-then-insert at the raw indices. -/
theorem listMove_eq {α : Type} (l : List α) (i t : Nat) (hi : i < l.length)
    (ht : t < l.length) :
    listMove l i t = (l.eraseIdx i).insertIdx t l[i] := by
  simp only [listMove, List.getElem?_eq_getElem hi]
  congr 1
  rw [List.length_eraseIdx, if_pos hi]
  exact Nat.min_eq_left (by omega)

/-- C4: for every boolean `value`, `selectAll value` sets every entry of
`rowsSelected` to `value` in a single pass (the result is the constant
list of length `data.length`) and emits exactly one change notification;
afterwards `selectedRowsCount` is `data.length` when `value` is true and
`0` when `value` is false. -/
theorem selectAll_spec {α : Type} (m : TableModel α) (value : Bool)
    (hlen : m.rowsSelected.length = m.data.length) :
    (m.selectAll value).1.rowsSelected = List.replicate m.data.length value ∧
    (m.selectAll value).2 = [TableNotification.rowsSelectedChange] ∧
    (value = true → (m.selectAll value).1.selectedRowsCount = m.data.length) ∧
    (value = false → (m.selectAll value).1.selectedRowsCount = 0) := by
  have hmap : (m.selectAll value).1.rowsSelected = List.replicate m.data.length value := by
    show m.rowsSelected.map (fun _ => value) = _
    rw [List.map_const', hlen]
  refine ⟨hmap, rfl, ?_, ?_⟩
  · intro hv
    subst hv
    show (m.selectAll true).1.rowsSelected.count true = m.data.length
    rw [hmap, List.count_replicate_self]
  · intro hv
    subst hv
    show (m.selectAll false).1.rowsSelected.count true = 0
    rw [hmap, List.count_replicate]
    simp

/-- C5: for an in-range index, `selectRow index value` sets
`rowsSelected[index]` to `value` and emits the selection-changed
notification; selecting a previously unselected row increases
`selectedRowsCount` by exactly one, re-selecting an already selected row
leaves the count unchanged; an out-of-range index is a silent no-op (the
model is returned unchanged, nothing is emitted, nothing throws). -/
theorem selectRow_spec {α : Type} (m : TableModel α) (index : Nat) (value : Bool) :
    (index < m.rowsSelected.length →
      (m.selectRow index value).1.rowsSelected = m.rowsSelected.set index value ∧
      (m.selectRow index value).1.rowsSelected[index]? = some value ∧
      (m.selectRow index value).2 = [TableNotification.rowsSelectedChange] ∧
      (m.rowsSelected[index]? = some false → value = true →
        (m.selectRow index value).1.selectedRowsCount = m.selectedRowsCount + 1) ∧
      (m.rowsSelected[index]? = some true → value = true →
        (m.selectRow index value).1.selectedRowsCount = m.selectedRowsCount)) ∧
    (m.rowsSelected.length ≤ index → m.selectRow index value = (m, [])) := by
  constructor
  · intro hi
    have hsel : (m.selectRow index value).1.rowsSelected = m.rowsSelected.set index value := by
      simp only [TableModel.selectRow, if_pos hi]
    refine ⟨hsel, ?_, ?_, ?_, ?_⟩
    · rw [hsel]
      simp [List.getElem?_set_self, hi]
    · simp only [TableModel.selectRow, if_pos hi]
    · intro h0 hv
      subst hv
      show (m.selectRow index true).1.rowsSelected.count true = m.rowsSelected.count true + 1
      rw [hsel]
      exact count_true_set_true m.rowsSelected index h0
    · intro h0 hv
      subst hv
      show (m.selectRow index true).1.rowsSelected.count true = m.rowsSelected.count true
      rw [hsel, set_getElem?_self m.rowsSelected index true h0]
  · intro hge
    simp only [TableModel.selectRow, if_neg (by omega : ¬ index < m.rowsSelected.length)]

/-- C6: every model mutation (row selection, bulk selection, expansion,
column move, wholesale data replacement) preserves the common length of
the bookkeeping arrays, and a data replacement re-derives
`rowsSelected`/`rowsExpanded`/`rowsContext` at the new data's length. -/
theorem applyMutation_wellFormed {α : Type} (m : TableModel α) (mu : TableMutation α)
    (h : m.wellFormed) :
    (m.applyMutation mu).wellFormed ∧
    ∀ d, ((m.applyMutation (TableMutation.setData d)).rowsSelected.length = d.length ∧
          (m.applyMutation (TableMutation.setData d)).rowsExpanded.length = d.length ∧
          (m.applyMutation (TableMutation.setData d)).rowsContext.length = d.length) := by
  obtain ⟨h1, h2, h3⟩ := h
  constructor
  · cases mu with
    | selectRow i v =>
      show ((m.selectRow i v).1).wellFormed
      unfold TableModel.wellFormed TableModel.selectRow
      split
      · exact ⟨by simpa using h1, h2, h3⟩
      · exact ⟨h1, h2, h3⟩
    | selectAll v =>
      show ((m.selectAll v).1).wellFormed
      unfold TableModel.wellFormed TableModel.selectAll
      exact ⟨by simpa using h1, h2, h3⟩
    | expandRow i e =>
      show ((m.expandRow i e).1).wellFormed
      unfold TableModel.wellFormed TableModel.expandRow
      exact ⟨h1, by simpa using h2, h3⟩
    | moveColumn f t =>
      show ((m.moveColumn f t).1).wellFormed
      unfold TableModel.wellFormed TableModel.moveColumn
      exact ⟨by simpa using h1, by simpa using h2, by simpa using h3⟩
    | setData d =>
      show ((m.setData d).1).wellFormed
      unfold TableModel.wellFormed TableModel.setData
      simp
  · intro d
    show (m.setData d).1.rowsSelected.length = d.length ∧
      (m.setData d).1.rowsExpanded.length = d.length ∧
      (m.setData d).1.rowsContext.length = d.length
    unfold TableModel.setData
    simp

/-- C7: clicking the sort button of column `i` only emits `i` on the
`sort` output; the view (model rows, header sort flags, checkbox state) is
returned untouched — sorting itself is left to the consuming
application. -/
theorem sortButton_pure_signal {α : Type} (t : TableView α) (i : Nat) :
    (Table.onSortButtonClick t i).2 = [i] ∧
    (Table.onSortButtonClick t i).1 = t ∧
    (Table.onSortButtonClick t i).1.model.data = t.model.data ∧
    (Table.onSortButtonClick t i).1.model.header = t.model.header :=
  ⟨rfl, rfl, rfl, rfl⟩

/-- C8: `expandRow index expand` is row-local — it writes
`rowsExpanded[index]` and leaves every other `rowsExpanded` entry, the
whole `data` array (hence every row's children sequence and each child's
own expansion flag), and the selection state unchanged. -/
theorem expandRow_rowLocal {α : Type} (m : TableModel α) (index : Nat) (expand : Bool)
    (hi : index < m.rowsExpanded.length) :
    (m.expandRow index expand).1.rowsExpanded[index]? = some expand ∧
    (∀ j, j ≠ index → (m.expandRow index expand).1.rowsExpanded[j]? = m.rowsExpanded[j]?) ∧
    (m.expandRow index expand).1.data = m.data ∧
    (m.expandRow index expand).1.rowsSelected = m.rowsSelected ∧
    (m.expandRow index expand).1.header = m.header := by
  refine ⟨?_, ?_, rfl, rfl, rfl⟩
  · show (m.rowsExpanded.set index expand)[index]? = some expand
    simp [List.getElem?_set_self, hi]
  · intro j hj
    show (m.rowsExpanded.set index expand)[j]? = m.rowsExpanded[j]?
    exact List.getElem?_set_ne (fun hc => hj hc.symm)

/-- C9: on a failed sprite HTTP request, `doSpriteRequest` logs exactly one
console error and propagates the same message to the caller as an erroring
observable; it issues no retry (a single HTTP request) and performs no
other recovery (the running-requests counter is simply left incremented).
On success nothing is logged and the body is passed through. -/
theorem doSpriteRequest_failure_logs_and_propagates :
    ∀ name : String,
      doSpriteRequest name (Except.error ()) =
        { consoleErrors := [spriteErrorMessage name],
          outcome := Except.error (spriteErrorMessage name),
          httpRequests := 1,
          runningRequestsDelta := 1 } ∧
      (doSpriteRequest name (Except.error ())).consoleErrors.length = 1 ∧
      (doSpriteRequest name (Except.error ())).httpRequests = 1 ∧
      ∀ body : String,
        doSpriteRequest name (Except.ok body) =
          { consoleErrors := [], outcome := Except.ok body, httpRequests := 1,
            runningRequestsDelta := 0 } :=
  fun _ => ⟨rfl, rfl, rfl, fun _ => rfl⟩

/-- C2: for in-range `f` and `t`, `moveColumn f t` removes the header at
position `f` and re-inserts it at position `t`, applies the identical
index move to every row's cell sequence, and afterwards the header at any
position `j` and the cell at position `j` of every (full-width) row both
originate from the same source column `k` — header-to-cell correspondence
is preserved positionally. -/
theorem moveColumn_correspondence {α : Type} (m : TableModel α) (f t : Nat)
    (hf : f < m.header.length) (ht : t < m.header.length) :
    (m.moveColumn f t).1.header = (m.header.eraseIdx f).insertIdx t m.header[f] ∧
    (m.moveColumn f t).1.data = m.data.map (fun row => listMove row f t) ∧
    ∀ j, j < m.header.length →
      ∃ k, k < m.header.length ∧
        (m.moveColumn f t).1.header[j]? = m.header[k]? ∧
        ∀ row, row ∈ m.data → row.length = m.header.length →
          (listMove row f t)[j]? = row[k]? := by
  refine ⟨?_, rfl, ?_⟩
  · show listMove m.header f t = _
    exact listMove_eq m.header f t hf ht
  · intro j hj
    refine ⟨moveSrc f t j, moveSrc_lt f t j _ hf ht hj, ?_, ?_⟩
    · show (listMove m.header f t)[j]? = _
      exact listMove_getElem? m.header f t j hf ht hj
    · intro row hrow hlen
      exact listMove_getElem? row f t j (by omega) (by omega) (by omega)

/-- C3: row filtering is conjunctive and non-destructive — `isRowFiltered`
is true exactly when some column's active filter predicate returns `false`
for the row's cell; the row is shown (`isRowFiltered = false`) exactly when
it passes every active column filter; the rendered row indices are indices
into the untouched full `data` array; and while rows are hidden every
selection index below `data.length` still resolves. -/
theorem isRowFiltered_conjunctive {α : Type} (m : TableModel α) (i : Nat)
    (row : List (TableItem α)) (hrow : m.data[i]? = some row) :
    (m.isRowFiltered i = true ↔
      ∃ (j : Nat) (h : TableHeaderItem α) (c : TableItem α) (p : TableItem α → Bool),
        m.header[j]? = some h ∧ row[j]? = some c ∧ h.filter = some p ∧ p c = false) ∧
    (m.isRowFiltered i = false ↔
      ∀ (j : Nat) (h : TableHeaderItem α) (c : TableItem α) (p : TableItem α → Bool),
        m.header[j]? = some h → row[j]? = some c → h.filter = some p → p c = true) ∧
    (∀ k, k ∈ Table.visibleRowIndices m → k < m.data.length ∧ m.isRowFiltered k = false) ∧
    (m.rowsSelected.length = m.data.length →
      ∀ k, k < m.data.length → (m.rowsSelected[k]?).isSome = true) := by
  have hred : m.isRowFiltered i = (m.header.zip row).any (fun hc => hc.1.filtersOut hc.2) := by
    simp only [TableModel.isRowFiltered, hrow]
  have htrue : m.isRowFiltered i = true ↔
      ∃ (j : Nat) (h : TableHeaderItem α) (c : TableItem α) (p : TableItem α → Bool),
        m.header[j]? = some h ∧ row[j]? = some c ∧ h.filter = some p ∧ p c = false := by
    rw [hred, any_zip_iff]
    constructor
    · rintro ⟨j, a, b, hja, hjb, hab⟩
      obtain ⟨p, hp, hpc⟩ := (filtersOut_iff a b).mp hab
      exact ⟨j, a, b, p, hja, hjb, hp, hpc⟩
    · rintro ⟨j, a, b, p, hja, hjb, hp, hpc⟩
      exact ⟨j, a, b, hja, hjb, (filtersOut_iff a b).mpr ⟨p, hp, hpc⟩⟩
  refine ⟨htrue, ?_, ?_, ?_⟩
  · constructor
    · intro hfalse j h c p hj hc hp
      cases hpc : p c with
      | true => rfl
      | false =>
        have : m.isRowFiltered i = true := htrue.mpr ⟨j, h, c, p, hj, hc, hp, hpc⟩
        rw [this] at hfalse
        exact Bool.noConfusion hfalse
    · intro hall
      cases hv : m.isRowFiltered i with
      | false => rfl
      | true =>
        obtain ⟨j, a, b, p, hja, hjb, hp, hpc⟩ := htrue.mp hv
        rw [hall j a b p hja hjb hp] at hpc
        exact Bool.noConfusion hpc
  · intro k hk
    unfold Table.visibleRowIndices at hk
    rw [List.mem_filter, List.mem_range] at hk
    obtain ⟨hmem, hneg⟩ := hk
    refine ⟨hmem, ?_⟩
    cases hv : m.isRowFiltered k with
    | false => rfl
    | true =>
      rw [hv] at hneg
      exact Bool.noConfusion hneg
  · intro hlen k hk
    rw [List.getElem?_eq_getElem (by omega : k < m.rowsSelected.length)]
    rfl

/-- C1 (amended): the header checkbox derivation holds in full only on the
row-checkbox path — after `onRowCheckboxChange`, count `0` gives
unchecked, a strict partial count gives indeterminate (checkbox cleared),
and a full count gives checked; the model-notification path
`updateSelectAllCheckbox` clears both flags at count `0` and sets only the
indeterminate flag for a strict partial count, but at a full count it
falls through and leaves the view unchanged — it never sets the checked
state. -/
theorem headerCheckbox_tristate_amended {α : Type} (t : TableView α) (i : Nat)
    (hlen : t.model.rowsSelected.length = t.model.data.length)
    (hpos : 0 < t.model.data.length) :
    (t.model.selectedRowsCount = 0 →
      (Table.onRowCheckboxChange t i).1.selectAllCheckbox = false ∧
      (Table.onRowCheckboxChange t i).1.selectAllCheckboxSomeSelected = false ∧
      Table.updateSelectAllCheckbox t
        = { t with selectAllCheckbox := false, selectAllCheckboxSomeSelected := false }) ∧
    (0 < t.model.selectedRowsCount → t.model.selectedRowsCount < t.model.data.length →
      (Table.onRowCheckboxChange t i).1.selectAllCheckbox = false ∧
      (Table.onRowCheckboxChange t i).1.selectAllCheckboxSomeSelected = true ∧
      Table.updateSelectAllCheckbox t = { t with selectAllCheckboxSomeSelected := true }) ∧
    (t.model.selectedRowsCount = t.model.data.length →
      (Table.onRowCheckboxChange t i).1.selectAllCheckbox = true ∧
      (Table.onRowCheckboxChange t i).1.selectAllCheckboxSomeSelected = false ∧
      Table.updateSelectAllCheckbox t = t) := by
  have hne : t.model.rowsSelected ≠ [] := by
    intro hnil
    rw [hnil] at hlen
    simp at hlen
    omega
  obtain ⟨a, as, hl⟩ := List.exists_cons_of_ne_nil hne
  have hcount : t.model.selectedRowsCount = (a :: as).count true := by
    rw [TableModel.selectedRowsCount, hl]
  have hlen' : t.model.data.length = (a :: as).length := by
    rw [← hlen, hl]
  obtain ⟨hscan0, hscanMid, hscanFull⟩ := checkboxScan a as
  refine ⟨?_, ?_, ?_⟩
  · intro h0
    obtain ⟨ha, hany⟩ := hscan0 (by rw [← hcount]; exact h0)
    have hbox : (Table.onRowCheckboxChange t i).1
        = { t with selectAllCheckboxSomeSelected := false, selectAllCheckbox := a } := by
      simp [Table.onRowCheckboxChange, hl, hany]
    refine ⟨?_, ?_, ?_⟩
    · rw [hbox]; exact ha
    · rw [hbox]
    · unfold Table.updateSelectAllCheckbox
      rw [if_pos (by omega : t.model.selectedRowsCount ≤ 0)]
  · intro hgt hlt
    have hany : as.any (fun one => one != a) = true := by
      refine hscanMid ?_ ?_
      · rw [← hcount]; exact hgt
      · rw [← hcount, ← hlen']; exact hlt
    have hbox : (Table.onRowCheckboxChange t i).1
        = { t with selectAllCheckbox := false, selectAllCheckboxSomeSelected := true } := by
      simp [Table.onRowCheckboxChange, hl, hany]
    refine ⟨?_, ?_, ?_⟩
    · rw [hbox]
    · rw [hbox]
    · unfold Table.updateSelectAllCheckbox
      rw [if_neg (by omega : ¬ t.model.selectedRowsCount ≤ 0), if_pos hlt]
  · intro hfull
    obtain ⟨ha, hany⟩ := hscanFull (by rw [← hcount, ← hlen']; exact hfull)
    have hbox : (Table.onRowCheckboxChange t i).1
        = { t with selectAllCheckboxSomeSelected := false, selectAllCheckbox := a } := by
      simp [Table.onRowCheckboxChange, hl, hany]
    refine ⟨?_, ?_, ?_⟩
    · rw [hbox]; exact ha
    · rw [hbox]
    · unfold Table.updateSelectAllCheckbox
      rw [if_neg (by omega : ¬ t.model.selectedRowsCount ≤ 0),
        if_neg (by omega : ¬ t.model.selectedRowsCount < t.model.data.length)]

/-- C1 (counterexample): a one-row model whose single row has just been
selected through `selectRow` — `selectedRowsCount` equals `data.length`,
the component reacts to the resulting `rowsSelectedChange` notification
with `updateSelectAllCheckbox`, yet the header checkbox stays unchecked,
contradicting the claim that a full selection yields the checked state on
every row-level selection change. -/
theorem updateSelectAllCheckbox_all_selected_not_checked :
    TableModel.selectedRowsCount
        ((TableModel.selectRow
          { header := [{ data := 0, visible := true, sorted := false, descending := false,
                         filter := none }],
            data := [[TableItem.mk 1 false []]],
            rowsSelected := [false], rowsExpanded := [false],
            rowsContext := [RowContext.noContext] } 0 true).1)
      = ((TableModel.selectRow
          { header := [{ data := 0, visible := true, sorted := false, descending := false,
                         filter := none }],
            data := [[TableItem.mk 1 false []]],
            rowsSelected := [false], rowsExpanded := [false],
            rowsContext := [RowContext.noContext] } 0 true).1).data.length ∧
    (Table.updateSelectAllCheckbox
        { model := (TableModel.selectRow
            { header := [{ data := 0, visible := true, sorted := false, descending := false,
                           filter := none }],
              data := [[TableItem.mk 1 false []]],
              rowsSelected := [false], rowsExpanded := [false],
              rowsContext := [RowContext.noContext] } 0 true).1,
          selectAllCheckbox := false, selectAllCheckboxSomeSelected := false,
          showSelectionColumn := true, enableSingleSelect := false }).selectAllCheckbox
      = false :=
  ⟨rfl, rfl⟩

/-- C10: in single-select mode (`showSelectionColumn` off,
`enableSingleSelect` on), `onRowSelect index` first clears every row and
then selects row `index`, so from any prior selection state exactly row
`index` is selected afterwards — in particular clicking an
already-selected row re-selects it instead of toggling it off, and the
path can never produce more than one selected row. -/
theorem onRowSelect_singleSelect {α : Type} (t : TableView α) (index : Nat)
    (hcol : t.showSelectionColumn = false) (hsingle : t.enableSingleSelect = true)
    (hi : index < t.model.rowsSelected.length) :
    (Table.onRowSelect t index).model.rowsSelected
        = (List.replicate t.model.rowsSelected.length false).set index true ∧
    (Table.onRowSelect t index).model.rowsSelected[index]? = some true ∧
    (∀ j, j ≠ index → j < t.model.rowsSelected.length →
        (Table.onRowSelect t index).model.rowsSelected[j]? = some false) ∧
    (Table.onRowSelect t index).model.selectedRowsCount = 1 := by
  have hcr : ((List.range t.model.rowsSelected.length).foldl
        (fun m i => (TableModel.selectRow m i false).1) t.model).rowsSelected
      = List.replicate t.model.rowsSelected.length false := clearFold_rowsSelected t.model
  have key : (Table.onRowSelect t index).model.rowsSelected
      = (List.replicate t.model.rowsSelected.length false).set index true := by
    simp only [Table.onRowSelect, hcol, hsingle, Bool.not_false, Bool.and_self, if_true]
    revert hcr
    generalize (List.range t.model.rowsSelected.length).foldl
        (fun m i => (TableModel.selectRow m i false).1) t.model = c
    intro hcr
    have hlen2 : index < c.rowsSelected.length := by
      rw [hcr]; simpa using hi
    have hgd : c.rowsSelected.getD index false = false := by
      rw [hcr]; exact getD_replicate_false _ _
    rw [hgd, Bool.not_false]
    unfold TableModel.selectRow
    rw [if_pos hlen2]
    simp only
    rw [hcr]
  have hrep0 : (List.replicate t.model.rowsSelected.length false)[index]? = some false := by
    rw [List.getElem?_replicate, if_pos hi]
  refine ⟨key, ?_, ?_, ?_⟩
  · rw [key]
    simp [List.getElem?_set_self, hi]
  · intro j hj hjlt
    rw [key, List.getElem?_set_ne (fun hc => hj hc.symm), List.getElem?_replicate,
      if_pos hjlt]
  · show (Table.onRowSelect t index).model.rowsSelected.count true = 1
    rw [key, count_true_set_true _ _ hrep0, List.count_replicate]
    simp

/-- Witness evaluating `headerCheckbox_tristate_amended` on the sample
view. -/
theorem headerCheckbox_tristate_amended_witness :
    sampleView.model.rowsSelected.length = sampleView.model.data.length ∧
    0 < sampleView.model.data.length ∧
    ((sampleView.model.selectedRowsCount = 0 →
      (Table.onRowCheckboxChange sampleView 0).1.selectAllCheckbox = false ∧
      (Table.onRowCheckboxChange sampleView 0).1.selectAllCheckboxSomeSelected = false ∧
      Table.updateSelectAllCheckbox sampleView
        = { sampleView with selectAllCheckbox := false,
                            selectAllCheckboxSomeSelected := false }) ∧
    (0 < sampleView.model.selectedRowsCount →
      sampleView.model.selectedRowsCount < sampleView.model.data.length →
      (Table.onRowCheckboxChange sampleView 0).1.selectAllCheckbox = false ∧
      (Table.onRowCheckboxChange sampleView 0).1.selectAllCheckboxSomeSelected = true ∧
      Table.updateSelectAllCheckbox sampleView
        = { sampleView with selectAllCheckboxSomeSelected := true }) ∧
    (sampleView.model.selectedRowsCount = sampleView.model.data.length →
      (Table.onRowCheckboxChange sampleView 0).1.selectAllCheckbox = true ∧
      (Table.onRowCheckboxChange sampleView 0).1.selectAllCheckboxSomeSelected = false ∧
      Table.updateSelectAllCheckbox sampleView = sampleView)) :=
  ⟨by decide, by decide,
    headerCheckbox_tristate_amended sampleView 0 (by decide) (by decide)⟩

/-- Witness evaluating `moveColumn_correspondence` on the sample model. -/
theorem moveColumn_correspondence_witness :
    0 < sampleModel.header.length ∧ 1 < sampleModel.header.length ∧
    ((sampleModel.moveColumn 0 1).1.header
        = (sampleModel.header.eraseIdx 0).insertIdx 1
            (sampleModel.header.get ⟨0, by decide⟩) ∧
     (sampleModel.moveColumn 0 1).1.data
        = sampleModel.data.map (fun row => listMove row 0 1) ∧
     ∀ j, j < sampleModel.header.length →
       ∃ k, k < sampleModel.header.length ∧
         (sampleModel.moveColumn 0 1).1.header[j]? = sampleModel.header[k]? ∧
         ∀ row, row ∈ sampleModel.data → row.length = sampleModel.header.length →
           (listMove row 0 1)[j]? = row[k]?) :=
  ⟨by decide, by decide,
    moveColumn_correspondence sampleModel 0 1 (by decide) (by decide)⟩

/-- Witness evaluating `isRowFiltered_conjunctive` on the filtered model,
whose single row fails the single active filter. -/
theorem isRowFiltered_conjunctive_witness :
    filteredModel.data[0]? = some [sampleCell 2] ∧
    ((filteredModel.isRowFiltered 0 = true ↔
      ∃ (j : Nat) (h : TableHeaderItem Nat) (c : TableItem Nat) (p : TableItem Nat → Bool),
        filteredModel.header[j]? = some h ∧ [sampleCell 2][j]? = some c ∧
        h.filter = some p ∧ p c = false) ∧
    (filteredModel.isRowFiltered 0 = false ↔
      ∀ (j : Nat) (h : TableHeaderItem Nat) (c : TableItem Nat) (p : TableItem Nat → Bool),
        filteredModel.header[j]? = some h → [sampleCell 2][j]? = some c →
        h.filter = some p → p c = true) ∧
    (∀ k, k ∈ Table.visibleRowIndices filteredModel →
        k < filteredModel.data.length ∧ filteredModel.isRowFiltered k = false) ∧
    (filteredModel.rowsSelected.length = filteredModel.data.length →
      ∀ k, k < filteredModel.data.length →
        (filteredModel.rowsSelected[k]?).isSome = true)) :=
  ⟨rfl, isRowFiltered_conjunctive filteredModel 0 [sampleCell 2] rfl⟩

/-- Witness evaluating `selectAll_spec` on the sample model. -/
theorem selectAll_spec_witness :
    sampleModel.rowsSelected.length = sampleModel.data.length ∧
    ((sampleModel.selectAll true).1.rowsSelected
        = List.replicate sampleModel.data.length true ∧
     (sampleModel.selectAll true).2 = [TableNotification.rowsSelectedChange] ∧
     (true = true → (sampleModel.selectAll true).1.selectedRowsCount
        = sampleModel.data.length) ∧
     (true = false → (sampleModel.selectAll true).1.selectedRowsCount = 0)) :=
  ⟨by decide, selectAll_spec sampleModel true (by decide)⟩

/-- Witness evaluating `selectRow_spec` on the sample model at the
unselected row `1`. -/
theorem selectRow_spec_witness :
    1 < sampleModel.rowsSelected.length ∧
    ((sampleModel.selectRow 1 true).1.rowsSelected = sampleModel.rowsSelected.set 1 true ∧
     (sampleModel.selectRow 1 true).1.rowsSelected[1]? = some true ∧
     (sampleModel.selectRow 1 true).2 = [TableNotification.rowsSelectedChange] ∧
     (sampleModel.rowsSelected[1]? = some false → true = true →
       (sampleModel.selectRow 1 true).1.selectedRowsCount
          = sampleModel.selectedRowsCount + 1) ∧
     (sampleModel.rowsSelected[1]? = some true → true = true →
       (sampleModel.selectRow 1 true).1.selectedRowsCount
          = sampleModel.selectedRowsCount)) :=
  ⟨by decide, (selectRow_spec sampleModel 1 true).1 (by decide)⟩

/-- Witness evaluating `applyMutation_wellFormed` on the sample model for
a bulk-selection mutation. -/
theorem applyMutation_wellFormed_witness :
    sampleModel.wellFormed ∧
    ((sampleModel.applyMutation (TableMutation.selectAll true)).wellFormed ∧
     ∀ d, ((sampleModel.applyMutation (TableMutation.setData d)).rowsSelected.length
              = d.length ∧
           (sampleModel.applyMutation (TableMutation.setData d)).rowsExpanded.length
              = d.length ∧
           (sampleModel.applyMutation (TableMutation.setData d)).rowsContext.length
              = d.length)) :=
  ⟨⟨rfl, rfl, rfl⟩,
    applyMutation_wellFormed sampleModel (TableMutation.selectAll true) ⟨rfl, rfl, rfl⟩⟩

/-- Witness evaluating `expandRow_rowLocal` on the sample model. -/
theorem expandRow_rowLocal_witness :
    0 < sampleModel.rowsExpanded.length ∧
    ((sampleModel.expandRow 0 true).1.rowsExpanded[0]? = some true ∧
     (∀ j, j ≠ 0 →
        (sampleModel.expandRow 0 true).1.rowsExpanded[j]? = sampleModel.rowsExpanded[j]?) ∧
     (sampleModel.expandRow 0 true).1.data = sampleModel.data ∧
     (sampleModel.expandRow 0 true).1.rowsSelected = sampleModel.rowsSelected ∧
     (sampleModel.expandRow 0 true).1.header = sampleModel.header) :=
  ⟨by decide, expandRow_rowLocal sampleModel 0 true (by decide)⟩

/-- Witness evaluating `onRowSelect_singleSelect` on the single-select
view, clicking the already-selected row `0`. -/
theorem onRowSelect_singleSelect_witness :
    singleSelectView.showSelectionColumn = false ∧
    singleSelectView.enableSingleSelect = true ∧
    0 < singleSelectView.model.rowsSelected.length ∧
    ((Table.onRowSelect singleSelectView 0).model.rowsSelected
        = (List.replicate singleSelectView.model.rowsSelected.length false).set 0 true ∧
     (Table.onRowSelect singleSelectView 0).model.rowsSelected[0]? = some true ∧
     (∀ j, j ≠ 0 → j < singleSelectView.model.rowsSelected.length →
        (Table.onRowSelect singleSelectView 0).model.rowsSelected[j]? = some false) ∧
     (Table.onRowSelect singleSelectView 0).model.selectedRowsCount = 1) :=
  ⟨rfl, rfl, by decide,
    onRowSelect_singleSelect singleSelectView 0 rfl rfl (by decide)⟩

end Carbon
